import Mathlib

/-
Verification development for the librespeed command-line speed-test client.

The repository's source under scrutiny is `librespeed/cli.py`: the
orchestrator `cli()` and the option declarations of `parse_args()`.  The
collaborator modules `librespeed.core` (`get_remote_servers`,
`do_speed_test`), `librespeed.ping` (`do_icmp_ping`,
`order_ping_results_by_rtt`) and `librespeed.errors` (`HttpError`) are not
part of the provided source; where their behaviour decides a property they
are modelled from the specification, and this is stated in the doc comment
of the corresponding definition.

The orchestrator is embedded as a pure function.  Network-facing
collaborators (`fetch`, the HTTP GET behind the server-list provider, and
`ping`, the ICMP probe primitive) are passed in as oracles; the calls the
orchestrator makes to its collaborators are recorded in an event trace, the
lines it prints in a list of strings, and Python exceptions become an
`Except` result.
-/

deriving instance DecidableEq for Except

namespace Librespeed

/-- Errors that can surface from one run of the orchestrator.  `httpError`
models `librespeed.errors.HttpError` (the retryable server-list fetch
failure); `configurationError` models the spec's ConfigurationError for
mutually exclusive options; `indexError` models a Python `IndexError` from
subscripting an empty list (as in `results[0]` on an empty ranking);
`noReachableServer` is the dedicated "no reachable server" error named by
the specification's error taxonomy — the source never raises it, the
constructor exists so that statements about it can be written. -/
inductive Err where
  | httpError
  | configurationError
  | indexError
  | noReachableServer
deriving DecidableEq

/-- A server record, after the dict of the remote server list: `id`,
`name`, `server` (the base URL, key "server"), and the optional sponsor
metadata keys "sponsorName" and "sponsorURL". -/
structure Server where
  id : Int
  name : String
  server : String
  sponsorName : Option String
  sponsorURL : Option String
deriving DecidableEq

/-- One latency probe attempt for a host: round-trip time in milliseconds
and a success flag (a failed attempt carries no usable rtt). -/
structure PingSample where
  rtt : Nat
  success : Bool
deriving DecidableEq

/-- The probe samples collected for one candidate host (domain = the URL
netloc that `cli` hands to `do_icmp_ping`). -/
structure PingHost where
  domain : String
  samples : List PingSample
deriving DecidableEq

/-- A ranked host as produced by the ranking step: the host's domain, its
representative latency (minimum successful rtt) and the number of
successful samples behind it. -/
structure RankedHost where
  domain : String
  latency : Nat
  sampleCount : Nat
deriving DecidableEq

/-- Python truthiness of an optional list (`None` and `[]` are falsy), as
used by `if args.server_id_allow_list:`. -/
def truthy {α : Type} : Option (List α) → Bool
  | none => false
  | some [] => false
  | some (_ :: _) => true

/-- Python truthiness of an optional string (`None` and `""` are falsy), as
used by `server.get("sponsorURL")` in a condition. -/
def strTruthy : Option String → Bool
  | none => false
  | some s => !(s == "")

/-- Scan a character list for the first "://" separator and return what
follows it, mirroring how `urllib.parse.urlsplit` finds the authority of an
absolute URL. -/
def afterSchemeSep : List Char → Option (List Char)
  | [] => none
  | ':' :: '/' :: '/' :: rest => some rest
  | _ :: rest => afterSchemeSep rest

/-- Model of `urllib.parse.urlsplit(url).netloc` (Python standard library)
for the URLs the server list carries: the text between "://" and the next
"/", "?" or "#"; empty when the URL has no "://". -/
def netloc (url : String) : String :=
  match afterSchemeSep url.data with
  | none => ""
  | some rest => ⟨rest.takeWhile (fun c => !(c == '/' || c == '?' || c == '#'))⟩

/-- The rtts of the successful samples of a host, in attempt order. -/
def successfulRtts (h : PingHost) : List Nat :=
  (h.samples.filter (fun s => s.success)).map (fun s => s.rtt)

/-- Aggregate one host's samples into its ranked form: `none` when the host
has no successful sample (such a host is excluded from ranking), otherwise
the minimum successful rtt as representative latency. -/
def toRanked (h : PingHost) : Option RankedHost :=
  match (successfulRtts h).min? with
  | none => none
  | some m => some ⟨h.domain, m, (successfulRtts h).length⟩

/-- Comparison used to order ranked hosts: ascending representative
latency. -/
def rankedLe (a b : RankedHost) : Bool := a.latency ≤ b.latency

/-- Modelled from the spec: `librespeed.ping.order_ping_results_by_rtt` is
not under the provided source.  Per the specification's Server Ranker
contract, ranking drops every host with zero successful samples, assigns
each remaining host its minimum successful rtt as representative latency,
and orders hosts by ascending representative latency with ties broken
stably by original candidate-list order (`List.mergeSort` is a stable
sort). -/
def order_ping_results_by_rtt (results : List PingHost) : List RankedHost :=
  (results.filterMap toRanked).mergeSort rankedLe

/-- Modelled from the spec: the allow/deny-list filter applied by the
server-list provider.  An allow-list keeps exactly the listed ids, a
deny-list drops the listed ids, and either filter preserves the provider's
listed order. -/
def filterServers (allow deny : Option (List Int)) (servers : List Server) : List Server :=
  if truthy allow then
    servers.filter (fun s => (allow.getD []).contains s.id)
  else if truthy deny then
    servers.filter (fun s => !(deny.getD []).contains s.id)
  else
    servers

/-- Modelled from the spec: `librespeed.core.get_remote_servers` is not
under the provided source.  Per the specification it is a simple HTTP GET
plus allow/deny-list filter, and supplying the explicit allow-list together
with the deny-list is a ConfigurationError surfaced immediately; the raw
GET is the `fetch` oracle (arguments: force_https, retry), which may fail
with a retryable `httpError`. -/
def get_remote_servers (fetch : Bool → Bool → Except Err (List Server))
    (force_https : Bool) (server_allow_list server_deny_list : Option (List Int))
    (retry : Bool) : Except Err (List Server) :=
  if truthy server_allow_list && truthy server_deny_list then
    Except.error Err.configurationError
  else
    match fetch force_https retry with
    | Except.error e => Except.error e
    | Except.ok servers => Except.ok (filterServers server_allow_list server_deny_list servers)

/-- One collaborator call made by the orchestrator: a server-list fetch
(`librespeed.core.get_remote_servers` with its keyword arguments), a ping
probe (`librespeed.ping.do_icmp_ping` with the domain list), or a speed
test (`librespeed.core.do_speed_test` with the server list it is handed). -/
inductive Event where
  | getRemoteServersCall (force_https : Bool) (allow deny : Option (List Int)) (retry : Bool)
  | icmpPingCall (domains : List String)
  | speedTestCall (servers : List Server)
deriving DecidableEq

/-- Whether an event is a call to `get_remote_servers`. -/
def isGrsCall : Event → Bool
  | Event.getRemoteServersCall _ _ _ _ => true
  | _ => false

/-- Whether an event is a call to `do_icmp_ping`. -/
def isPingCall : Event → Bool
  | Event.icmpPingCall _ => true
  | _ => false

/-- Whether an event is a call to `do_speed_test`. -/
def isSpeedTestCall : Event → Bool
  | Event.speedTestCall _ => true
  | _ => false

/-- Whether an event starts any measurement (ping probing or speed
testing), as opposed to fetching the server list. -/
def isMeasurementEvent (e : Event) : Bool :=
  isPingCall e || isSpeedTestCall e

/-- Python `logging.WARNING`. -/
def WARNING : Nat := 30

/-- Python `logging.DEBUG`. -/
def DEBUG : Nat := 10

/-- Python `logging.INFO`. -/
def INFO : Nat := 20

/-- The parsed command-line options of `parse_args()`, one field per
`dest`, with the argparse defaults.  `upload_size` is a float in the
source (`type=float`); no claim depends on its arithmetic, so it is
carried as an exact rational here. -/
structure Args where
  ipv4 : Bool := false
  ipv6 : Bool := false
  no_download : Bool := false
  no_upload : Bool := false
  no_icmp : Bool := false
  concurrent : Int := 3
  bytes : Bool := false
  mebibytes : Bool := false
  distance : String := "km"
  share : Bool := false
  simple : Bool := false
  verbose : Bool := false
  csv : Bool := false
  csv_delimiter : String := ","
  csv_header : Bool := false
  json : Bool := false
  show_server_list : Bool := false
  server_id_allow_list : Option (List Int) := none
  server_id_deny_list : Option (List Int) := none
  server_json : Option String := none
  local_json : Option String := none
  source : Option String := none
  timeout : Int := 15
  duration : Int := 15
  chunk : Int := 100
  upload_size : Rat := 1024
  force_https : Bool := false
  skip_cert_verify : Bool := false
  no_pre_allocate : Bool := false
  telemetry_json : Option String := none
  telemetry_level : Option String := none
  telemetry_server : Option String := none
  telemetry_path : Option String := none
  telemetry_share : Option String := none
  telemetry_extra : Option String := none

/-- Log-level selection of `cli()` (cli.py lines 227-232): `--simple`
yields WARNING, else `--verbose` yields DEBUG, else INFO. -/
def log_level (args : Args) : Nat :=
  if args.simple then WARNING
  else if args.verbose then DEBUG
  else INFO

/-- One printed line of the `--list` branch (cli.py lines 261-267):
sponsor text from "sponsorName", extended with " @ sponsorURL" when both
are truthy, wrapped in "[Sponsor: ...]" when non-empty, then the
"id: name (server) sponsor" line. -/
def formatServerLine (s : Server) : String :=
  let sponsor0 := s.sponsorName.getD ""
  let sponsor1 :=
    if !(sponsor0 == "") && strTruthy s.sponsorURL then
      sponsor0 ++ " @ " ++ s.sponsorURL.getD ""
    else sponsor0
  let sponsor2 :=
    if !(sponsor1 == "") then "[Sponsor: " ++ sponsor1 ++ "]" else sponsor1
  toString s.id ++ ": " ++ s.name ++ " (" ++ s.server ++ ") " ++ sponsor2

/-- The server-list fetch of `cli()` (cli.py lines 251-258): one call to
`get_remote_servers`, and on `HttpError` — and only then — exactly one
further call with `retry=True`, whose outcome is final.  Returns the calls
made and the outcome. -/
def fetchServerList (fetch : Bool → Bool → Except Err (List Server))
    (force_https : Bool) (allow deny : Option (List Int)) :
    List Event × Except Err (List Server) :=
  match get_remote_servers fetch force_https allow deny false with
  | Except.ok servers =>
      ([Event.getRemoteServersCall force_https allow deny false], Except.ok servers)
  | Except.error e =>
      if e = Err.httpError then
        ([Event.getRemoteServersCall force_https allow deny false,
          Event.getRemoteServersCall force_https allow deny true],
         get_remote_servers fetch force_https allow deny true)
      else
        ([Event.getRemoteServersCall force_https allow deny false], Except.error e)

/-- What one run produces besides the log level: the collaborator-call
trace, the printed lines, and the result (`Except.error` models an
uncaught Python exception terminating the run). -/
structure RunOutput where
  trace : List Event
  printed : List String
  result : Except Err Unit
deriving DecidableEq

/-- The body of `cli()` after logging setup (cli.py lines 243-286).  Its
only inputs from the parsed options are `show_server_list`, `force_https`,
`server_id_allow_list` and `server_id_deny_list`:
with `--list` the filter lists are dropped (`server_filters = {}`);
the server list is fetched via `fetchServerList`; the `--list` branch
prints one line per server and returns; a truthy allow-list runs
`do_speed_test(server_list)` directly; otherwise the netlocs of all
candidates are probed, the ping results are ranked, `results[0]` of an
empty ranking raises IndexError, and otherwise the speed test runs over
the candidates whose netloc equals the fastest domain, in list order. -/
def run (fetch : Bool → Bool → Except Err (List Server))
    (ping : List String → List PingHost)
    (show_server_list force_https : Bool)
    (server_id_allow_list server_id_deny_list : Option (List Int)) : RunOutput :=
  let allow := if show_server_list then none else server_id_allow_list
  let deny := if show_server_list then none else server_id_deny_list
  let fr := fetchServerList fetch force_https allow deny
  match fr.2 with
  | Except.error e => ⟨fr.1, [], Except.error e⟩
  | Except.ok server_list =>
    if show_server_list then
      ⟨fr.1, server_list.map formatServerLine, Except.ok ()⟩
    else if truthy server_id_allow_list then
      ⟨fr.1 ++ [Event.speedTestCall server_list], [], Except.ok ()⟩
    else
      let domains := server_list.map (fun s => netloc s.server)
      match order_ping_results_by_rtt (ping domains) with
      | [] => ⟨fr.1 ++ [Event.icmpPingCall domains], [], Except.error Err.indexError⟩
      | fastest :: _ =>
        ⟨fr.1 ++ [Event.icmpPingCall domains,
            Event.speedTestCall
              (server_list.filter (fun s => netloc s.server == fastest.domain))],
         [], Except.ok ()⟩

/-- Everything observable from one `cli()` invocation: the log level it
configures and the run output. -/
structure CliOutput where
  logLevel : Nat
  trace : List Event
  printed : List String
  result : Except Err Unit
deriving DecidableEq

/-- The orchestrator `cli()` (cli.py lines 224-286): configures logging at
`log_level args`, then executes the run body, which reads only the
server-selection options. -/
def cli (fetch : Bool → Bool → Except Err (List Server))
    (ping : List String → List PingHost) (args : Args) : CliOutput :=
  let r := run fetch ping args.show_server_list args.force_https
      args.server_id_allow_list args.server_id_deny_list
  ⟨log_level args, r.trace, r.printed, r.result⟩

/-- Directions of a throughput measurement phase. -/
inductive Direction where
  | download
  | upload
deriving DecidableEq

/-- One phase's throughput figure (spec §3 ThroughputResult). -/
structure ThroughputResult where
  direction : Direction
  bits_per_second : Nat
  duration_measured : Nat
  byte_total : Nat
  worker_count : Nat
deriving DecidableEq

/-- The assembled result of one speed test: the servers tested and the two
optional phase results (spec §3 SpeedTestResult; a disabled phase is
omitted, not zero-filled). -/
structure SpeedTestResult where
  servers : List Server
  download : Option ThroughputResult
  upload : Option ThroughputResult
deriving DecidableEq

/-- Modelled from the spec: `librespeed.core.do_speed_test` is not under
the provided source.  Per the specification's Test Orchestrator contract it
runs the download phase then the upload phase against the handed servers,
skipping a phase exactly when its disable flag (`--no-download` /
`--no-upload`) is set, in which case that ThroughputResult is omitted
(`none`), not zero-filled; `measure` is the Throughput Sampler oracle. -/
def do_speed_test (measure : Direction → ThroughputResult)
    (no_download no_upload : Bool) (servers : List Server) : SpeedTestResult :=
  { servers := servers
    download := if no_download then none else some (measure Direction.download)
    upload := if no_upload then none else some (measure Direction.upload) }

/-
Basic reduction lemmas about the embedding, shared by the claim proofs.
-/

/-- Each component of `cli`'s output in terms of `run` and `log_level`. -/
theorem cli_trace_eq (fetch : Bool → Bool → Except Err (List Server))
    (ping : List String → List PingHost) (args : Args) :
    (cli fetch ping args).trace
      = (run fetch ping args.show_server_list args.force_https
          args.server_id_allow_list args.server_id_deny_list).trace := rfl

/-- The printed lines of `cli` are those of `run`. -/
theorem cli_printed_eq (fetch : Bool → Bool → Except Err (List Server))
    (ping : List String → List PingHost) (args : Args) :
    (cli fetch ping args).printed
      = (run fetch ping args.show_server_list args.force_https
          args.server_id_allow_list args.server_id_deny_list).printed := rfl

/-- The result of `cli` is that of `run`. -/
theorem cli_result_eq (fetch : Bool → Bool → Except Err (List Server))
    (ping : List String → List PingHost) (args : Args) :
    (cli fetch ping args).result
      = (run fetch ping args.show_server_list args.force_https
          args.server_id_allow_list args.server_id_deny_list).result := rfl

/-- The log level `cli` configures is `log_level args`. -/
theorem cli_logLevel_eq (fetch : Bool → Bool → Except Err (List Server))
    (ping : List String → List PingHost) (args : Args) :
    (cli fetch ping args).logLevel = log_level args := rfl

/-- C9: in log-level selection `--simple` takes precedence over
`--verbose`: whenever both flags are set, `cli` configures logging at
WARNING level; `--verbose` alone yields DEBUG, and neither flag yields
INFO. -/
theorem cli_log_level_simple_over_verbose
    (fetch : Bool → Bool → Except Err (List Server))
    (ping : List String → List PingHost) (args : Args) :
    (args.simple = true → (cli fetch ping args).logLevel = WARNING)
    ∧ (args.simple = false → args.verbose = true →
        (cli fetch ping args).logLevel = DEBUG)
    ∧ (args.simple = false → args.verbose = false →
        (cli fetch ping args).logLevel = INFO) := by
  refine ⟨fun h => ?_, fun h1 h2 => ?_, fun h1 h2 => ?_⟩
  · simp [cli_logLevel_eq, log_level, h]
  · simp [cli_logLevel_eq, log_level, h1, h2]
  · simp [cli_logLevel_eq, log_level, h1, h2]

/-- Witness for C9 at a concrete argument vector with both flags set. -/
theorem cli_log_level_simple_over_verbose_witness :
    ({simple := true, verbose := true} : Args).simple = true
    ∧ (cli (fun _ _ => Except.ok []) (fun _ => [])
        {simple := true, verbose := true}).logLevel = WARNING :=
  ⟨rfl, (cli_log_level_simple_over_verbose (fun _ _ => Except.ok []) (fun _ => [])
    {simple := true, verbose := true}).1 rfl⟩

/-- C4: the configured disable flags control the phases: a phase disabled
by `--no-download` / `--no-upload` is omitted from the result entirely
(its ThroughputResult is `none`, not zero-filled), and an enabled phase's
result is present and comes from the measurement. -/
theorem do_speed_test_disable_flags_control_phases
    (measure : Direction → ThroughputResult) (args : Args)
    (servers : List Server) :
    ((do_speed_test measure args.no_download args.no_upload servers).download = none
      ↔ args.no_download = true)
    ∧ ((do_speed_test measure args.no_download args.no_upload servers).upload = none
      ↔ args.no_upload = true)
    ∧ (args.no_download = false →
        (do_speed_test measure args.no_download args.no_upload servers).download
          = some (measure Direction.download))
    ∧ (args.no_upload = false →
        (do_speed_test measure args.no_download args.no_upload servers).upload
          = some (measure Direction.upload)) := by
  cases h1 : args.no_download <;> cases h2 : args.no_upload <;>
    simp [do_speed_test]

/-- Witness for C4 at a concrete measurement oracle and default flags. -/
theorem do_speed_test_disable_flags_control_phases_witness :
    ({} : Args).no_download = false
    ∧ (do_speed_test (fun d => ⟨d, 8, 1, 1, 1⟩) ({} : Args).no_download
        ({} : Args).no_upload []).download
      = some ((fun d => (⟨d, 8, 1, 1, 1⟩ : ThroughputResult)) Direction.download) :=
  ⟨rfl, (do_speed_test_disable_flags_control_phases
    (fun d => ⟨d, 8, 1, 1, 1⟩) {} []).2.2.1 rfl⟩

/-- C10: the collaborator-call trace of `cli` depends only on the
server-selection options `--list`, `--secure`, `--server` and `--exclude`;
two argument vectors agreeing on those four produce the same sequence of
collaborator calls with the same arguments, whatever the tuning,
output-formatting and telemetry options are. -/
theorem cli_trace_depends_only_on_server_selection_options
    (fetch : Bool → Bool → Except Err (List Server))
    (ping : List String → List PingHost) (a1 a2 : Args)
    (h1 : a1.show_server_list = a2.show_server_list)
    (h2 : a1.force_https = a2.force_https)
    (h3 : a1.server_id_allow_list = a2.server_id_allow_list)
    (h4 : a1.server_id_deny_list = a2.server_id_deny_list) :
    (cli fetch ping a1).trace = (cli fetch ping a2).trace := by
  rw [cli_trace_eq, cli_trace_eq, h1, h2, h3, h4]

/-- Witness for C10: two argument vectors differing in tuning options
(`--concurrent`, `--timeout`, `--duration`, `--chunk`, `--upload-size`,
`--no-pre-allocate`, `--source`, `--skip-cert-verify`, `--no-icmp`, output
formatting and telemetry) yield identical traces. -/
theorem cli_trace_depends_only_on_server_selection_options_witness :
    ({} : Args).show_server_list
      = ({concurrent := 9, timeout := 1, duration := 2, chunk := 3,
          upload_size := 4, no_pre_allocate := true, source := some "1.2.3.4",
          skip_cert_verify := true, no_icmp := true, bytes := true,
          mebibytes := true, distance := "mi", csv := true, json := true,
          telemetry_level := some "full"} : Args).show_server_list
    ∧ (cli (fun _ _ => Except.ok []) (fun _ => []) {}).trace
      = (cli (fun _ _ => Except.ok []) (fun _ => [])
          {concurrent := 9, timeout := 1, duration := 2, chunk := 3,
           upload_size := 4, no_pre_allocate := true, source := some "1.2.3.4",
           skip_cert_verify := true, no_icmp := true, bytes := true,
           mebibytes := true, distance := "mi", csv := true, json := true,
           telemetry_level := some "full"}).trace :=
  ⟨rfl, cli_trace_depends_only_on_server_selection_options
    (fun _ _ => Except.ok []) (fun _ => []) _ _ rfl rfl rfl rfl⟩

/-- Reduction of `fetchServerList` when the first attempt succeeds. -/
theorem fetchServerList_ok (fetch : Bool → Bool → Except Err (List Server))
    (fh : Bool) (a d : Option (List Int)) (l : List Server)
    (h : get_remote_servers fetch fh a d false = Except.ok l) :
    fetchServerList fetch fh a d
      = ([Event.getRemoteServersCall fh a d false], Except.ok l) := by
  simp [fetchServerList, h]

/-- Reduction of `fetchServerList` when the first attempt raises
`HttpError`: exactly one further call, with `retry=True`. -/
theorem fetchServerList_httpError (fetch : Bool → Bool → Except Err (List Server))
    (fh : Bool) (a d : Option (List Int))
    (h : get_remote_servers fetch fh a d false = Except.error Err.httpError) :
    fetchServerList fetch fh a d
      = ([Event.getRemoteServersCall fh a d false,
          Event.getRemoteServersCall fh a d true],
         get_remote_servers fetch fh a d true) := by
  simp [fetchServerList, h]

/-- Reduction of `fetchServerList` when the first attempt raises an error
other than `HttpError`: no retry, the error propagates. -/
theorem fetchServerList_otherError (fetch : Bool → Bool → Except Err (List Server))
    (fh : Bool) (a d : Option (List Int)) (e : Err)
    (h : get_remote_servers fetch fh a d false = Except.error e)
    (hne : e ≠ Err.httpError) :
    fetchServerList fetch fh a d
      = ([Event.getRemoteServersCall fh a d false], Except.error e) := by
  simp [fetchServerList, h, hne]

/-- Reduction of `run` on the explicit allow-list branch (cli.py line
270-271): no probing, one speed test over the fetched list. -/
theorem run_allow_branch (fetch : Bool → Bool → Except Err (List Server))
    (ping : List String → List PingHost) (fh : Bool)
    (a d : Option (List Int)) (l : List Server)
    (ha : truthy a = true)
    (hf : get_remote_servers fetch fh a d false = Except.ok l) :
    run fetch ping false fh a d
      = ⟨[Event.getRemoteServersCall fh a d false, Event.speedTestCall l],
         [], Except.ok ()⟩ := by
  simp [run, fetchServerList_ok fetch fh a d l hf, ha]

/-- Reduction of `run` on the automatic-selection branch when the ranking
is non-empty (cli.py lines 273-284). -/
theorem run_auto_branch (fetch : Bool → Bool → Except Err (List Server))
    (ping : List String → List PingHost) (fh : Bool)
    (a d : Option (List Int)) (l : List Server) (fastest : RankedHost)
    (rest : List RankedHost)
    (ha : truthy a = false)
    (hf : get_remote_servers fetch fh a d false = Except.ok l)
    (hr : order_ping_results_by_rtt (ping (l.map (fun s => netloc s.server)))
        = fastest :: rest) :
    run fetch ping false fh a d
      = ⟨[Event.getRemoteServersCall fh a d false,
          Event.icmpPingCall (l.map (fun s => netloc s.server)),
          Event.speedTestCall
            (l.filter (fun s => netloc s.server == fastest.domain))],
         [], Except.ok ()⟩ := by
  simp [run, fetchServerList_ok fetch fh a d l hf, ha, hr]

/-- Reduction of `run` on the automatic-selection branch when the ranking
is empty: `results[0]` raises IndexError. -/
theorem run_auto_branch_empty (fetch : Bool → Bool → Except Err (List Server))
    (ping : List String → List PingHost) (fh : Bool)
    (a d : Option (List Int)) (l : List Server)
    (ha : truthy a = false)
    (hf : get_remote_servers fetch fh a d false = Except.ok l)
    (hr : order_ping_results_by_rtt (ping (l.map (fun s => netloc s.server))) = []) :
    run fetch ping false fh a d
      = ⟨[Event.getRemoteServersCall fh a d false,
          Event.icmpPingCall (l.map (fun s => netloc s.server))],
         [], Except.error Err.indexError⟩ := by
  simp [run, fetchServerList_ok fetch fh a d l hf, ha, hr]

/-- An allow-list together with a deny-list is rejected by the server-list
provider with a ConfigurationError, whatever the retry flag. -/
theorem get_remote_servers_both_lists (fetch : Bool → Bool → Except Err (List Server))
    (fh : Bool) (a d : Option (List Int)) (r : Bool)
    (ha : truthy a = true) (hd : truthy d = true) :
    get_remote_servers fetch fh a d r = Except.error Err.configurationError := by
  simp [get_remote_servers, ha, hd]

/-- The allow/deny filter only ever removes servers: its output is a
sublist of the provider's list, in the provider's order. -/
theorem filterServers_sublist (a d : Option (List Int)) (l : List Server) :
    (filterServers a d l).Sublist l := by
  unfold filterServers
  by_cases h1 : truthy a
  · simp only [h1, if_true]
    exact List.filter_sublist _
  · by_cases h2 : truthy d <;> simp only [h1, h2, if_true, if_false]
    · exact List.filter_sublist _
    · exact List.Sublist.refl _

/-- C5: supplying the explicit allow-list (`--server`) together with the
deny-list (`--exclude`) on a measurement run is a fatal ConfigurationError
surfaced immediately: the run's result is the configuration error, the
only collaborator call is the server-list fetch, and no measurement
(ping probe or speed test) is ever started. -/
theorem cli_allow_and_deny_lists_configuration_error
    (fetch : Bool → Bool → Except Err (List Server))
    (ping : List String → List PingHost) (args : Args)
    (hs : args.show_server_list = false)
    (ha : truthy args.server_id_allow_list = true)
    (hd : truthy args.server_id_deny_list = true) :
    (cli fetch ping args).result = Except.error Err.configurationError
    ∧ (cli fetch ping args).trace
      = [Event.getRemoteServersCall args.force_https args.server_id_allow_list
          args.server_id_deny_list false]
    ∧ (∀ e ∈ (cli fetch ping args).trace, isMeasurementEvent e = false)
    ∧ (cli fetch ping args).printed = [] := by
  have hg := get_remote_servers_both_lists fetch args.force_https
    args.server_id_allow_list args.server_id_deny_list false ha hd
  have hfe := fetchServerList_otherError fetch args.force_https
    args.server_id_allow_list args.server_id_deny_list Err.configurationError hg
    (by decide)
  have hrun : run fetch ping false args.force_https args.server_id_allow_list
      args.server_id_deny_list
      = ⟨[Event.getRemoteServersCall args.force_https args.server_id_allow_list
            args.server_id_deny_list false],
         [], Except.error Err.configurationError⟩ := by
    simp [run, hfe]
  refine ⟨?_, ?_, ?_, ?_⟩
  · rw [cli_result_eq, hs, hrun]
  · rw [cli_trace_eq, hs, hrun]
  · rw [cli_trace_eq, hs, hrun]
    intro e he
    simp only [List.mem_singleton] at he
    subst he
    rfl
  · rw [cli_printed_eq, hs, hrun]

/-- Witness for C5 at a concrete argument vector carrying both lists. -/
theorem cli_allow_and_deny_lists_configuration_error_witness :
    truthy ({server_id_allow_list := some [1],
             server_id_deny_list := some [2]} : Args).server_id_allow_list = true
    ∧ (cli (fun _ _ => Except.ok []) (fun _ => [])
        {server_id_allow_list := some [1], server_id_deny_list := some [2]}).result
      = Except.error Err.configurationError :=
  ⟨rfl, (cli_allow_and_deny_lists_configuration_error
    (fun _ _ => Except.ok []) (fun _ => [])
    {server_id_allow_list := some [1], server_id_deny_list := some [2]}
    rfl rfl rfl).1⟩

/-- C2: with an explicit allow-list, `cli` skips RTT probing and ranking
entirely — its trace is the fetch followed directly by one speed-test call
over the fetched (allow-filtered) server list, which is a sublist of the
provider's list in the provider's listed order. -/
theorem cli_allow_list_skips_ping_and_tests_listed_servers
    (fetch : Bool → Bool → Except Err (List Server))
    (ping : List String → List PingHost) (args : Args) (server_list : List Server)
    (hs : args.show_server_list = false)
    (ha : truthy args.server_id_allow_list = true)
    (hf : get_remote_servers fetch args.force_https args.server_id_allow_list
        args.server_id_deny_list false = Except.ok server_list) :
    (cli fetch ping args).trace
      = [Event.getRemoteServersCall args.force_https args.server_id_allow_list
          args.server_id_deny_list false,
         Event.speedTestCall server_list]
    ∧ (∀ e ∈ (cli fetch ping args).trace, isPingCall e = false)
    ∧ (cli fetch ping args).result = Except.ok ()
    ∧ (∀ raw, fetch args.force_https false = Except.ok raw →
        server_list.Sublist raw) := by
  have hrun := run_allow_branch fetch ping args.force_https
    args.server_id_allow_list args.server_id_deny_list server_list ha hf
  refine ⟨?_, ?_, ?_, ?_⟩
  · rw [cli_trace_eq, hs, hrun]
  · rw [cli_trace_eq, hs, hrun]
    intro e he
    simp only [List.mem_cons, List.mem_singleton, List.not_mem_nil, or_false] at he
    rcases he with rfl | rfl <;> rfl
  · rw [cli_result_eq, hs, hrun]
  · intro raw hraw
    unfold get_remote_servers at hf
    by_cases hdt : truthy args.server_id_deny_list
    · rw [if_pos] at hf
      · cases hf
      · simp [ha, hdt]
    · rw [if_neg] at hf
      · rw [hraw] at hf
        have hfl : filterServers args.server_id_allow_list
            args.server_id_deny_list raw = server_list := by
          exact (Except.ok.injEq _ _).mp hf
        rw [← hfl]
        exact filterServers_sublist _ _ _
      · simp [ha, hdt]

/-- Witness for C2 at a concrete allow-list run. -/
theorem cli_allow_list_skips_ping_and_tests_listed_servers_witness :
    get_remote_servers
        (fun _ _ => Except.ok [⟨5, "E", "http://e/x", none, none⟩])
        false (some [5]) none false
      = Except.ok [⟨5, "E", "http://e/x", none, none⟩]
    ∧ (cli (fun _ _ => Except.ok [⟨5, "E", "http://e/x", none, none⟩])
        (fun _ => []) {server_id_allow_list := some [5]}).trace
      = [Event.getRemoteServersCall false (some [5]) none false,
         Event.speedTestCall [⟨5, "E", "http://e/x", none, none⟩]] :=
  ⟨by decide, (cli_allow_list_skips_ping_and_tests_listed_servers
    (fun _ _ => Except.ok [⟨5, "E", "http://e/x", none, none⟩]) (fun _ => [])
    {server_id_allow_list := some [5]} [⟨5, "E", "http://e/x", none, none⟩]
    rfl rfl (by decide)).1⟩

/-- Every event recorded by `fetchServerList` is a `get_remote_servers`
call. -/
theorem fetchServerList_events_grs (fetch : Bool → Bool → Except Err (List Server))
    (fh : Bool) (a d : Option (List Int)) :
    (fetchServerList fetch fh a d).1.filter isGrsCall
      = (fetchServerList fetch fh a d).1 := by
  unfold fetchServerList
  cases h : get_remote_servers fetch fh a d false with
  | ok l => simp [isGrsCall]
  | error e => by_cases he : e = Err.httpError <;> simp [he, isGrsCall]

/-- The `get_remote_servers` calls in a run's trace are exactly the calls
`fetchServerList` made; nothing after the fetch calls the provider
again. -/
theorem run_trace_filter_grs (fetch : Bool → Bool → Except Err (List Server))
    (ping : List String → List PingHost) (s fh : Bool)
    (a d : Option (List Int)) :
    (run fetch ping s fh a d).trace.filter isGrsCall
      = (fetchServerList fetch fh (if s then none else a)
          (if s then none else d)).1 := by
  simp only [run]
  split
  · exact fetchServerList_events_grs fetch fh _ _
  · split
    · exact fetchServerList_events_grs fetch fh _ _
    · split
      · simp [List.filter_append, isGrsCall, fetchServerList_events_grs]
      · split
        · simp [List.filter_append, isGrsCall, fetchServerList_events_grs]
        · simp [List.filter_append, isGrsCall, fetchServerList_events_grs]

/-- C6: fetching the server list is a bounded single-retry policy: on a
successful first call to `get_remote_servers` no retry occurs; a first
call raising `HttpError` is followed by exactly one further call, with
`retry=True`; any other failure is not retried.  The provider calls of the
whole run are exactly these. -/
theorem cli_server_list_fetch_single_retry
    (fetch : Bool → Bool → Except Err (List Server))
    (ping : List String → List PingHost) (args : Args)
    (allow deny : Option (List Int))
    (hae : allow = if args.show_server_list then none else args.server_id_allow_list)
    (hde : deny = if args.show_server_list then none else args.server_id_deny_list) :
    (∀ l, get_remote_servers fetch args.force_https allow deny false
        = Except.ok l →
      (cli fetch ping args).trace.filter isGrsCall
        = [Event.getRemoteServersCall args.force_https allow deny false])
    ∧ (get_remote_servers fetch args.force_https allow deny false
        = Except.error Err.httpError →
      (cli fetch ping args).trace.filter isGrsCall
        = [Event.getRemoteServersCall args.force_https allow deny false,
           Event.getRemoteServersCall args.force_https allow deny true])
    ∧ (∀ e, get_remote_servers fetch args.force_https allow deny false
        = Except.error e → e ≠ Err.httpError →
      (cli fetch ping args).trace.filter isGrsCall
        = [Event.getRemoteServersCall args.force_https allow deny false]) := by
  have ht : (cli fetch ping args).trace.filter isGrsCall
      = (fetchServerList fetch args.force_https allow deny).1 := by
    rw [cli_trace_eq, run_trace_filter_grs, ← hae, ← hde]
  refine ⟨fun l h => ?_, fun h => ?_, fun e h hne => ?_⟩
  · rw [ht, fetchServerList_ok fetch args.force_https allow deny l h]
  · rw [ht, fetchServerList_httpError fetch args.force_https allow deny h]
  · rw [ht, fetchServerList_otherError fetch args.force_https allow deny e h hne]

/-- Witness for C6: a provider whose first attempt raises `HttpError` is
called exactly twice, the second time with `retry=True`. -/
theorem cli_server_list_fetch_single_retry_witness :
    get_remote_servers
        (fun _ r => if r then Except.ok [] else Except.error Err.httpError)
        false (some [1]) none false
      = Except.error Err.httpError
    ∧ (cli (fun _ r => if r then Except.ok [] else Except.error Err.httpError)
        (fun _ => []) {server_id_allow_list := some [1]}).trace.filter isGrsCall
      = [Event.getRemoteServersCall false (some [1]) none false,
         Event.getRemoteServersCall false (some [1]) none true] :=
  ⟨by decide, (cli_server_list_fetch_single_retry
    (fun _ r => if r then Except.ok [] else Except.error Err.httpError)
    (fun _ => []) {server_id_allow_list := some [1]} (some [1]) none
    rfl rfl).2.1 (by decide)⟩

/-- Reduction of `run` on the `--list` branch (cli.py lines 260-268): the
filter lists are dropped and one line is printed per server. -/
theorem run_list_branch (fetch : Bool → Bool → Except Err (List Server))
    (ping : List String → List PingHost) (fh : Bool)
    (a d : Option (List Int)) (l : List Server)
    (hf : get_remote_servers fetch fh none none false = Except.ok l) :
    run fetch ping true fh a d
      = ⟨[Event.getRemoteServersCall fh none none false],
         l.map formatServerLine, Except.ok ()⟩ := by
  simp [run, fetchServerList_ok fetch fh none none l hf]

/-- C8: with `--list`, `cli` fetches the server list with an empty filter
set (the allow-list and deny-list values are ignored: the provider is
called with no filters), prints one line per server, and returns without
any ping probing or speed measurement. -/
theorem cli_show_server_list_prints_and_skips_measurement
    (fetch : Bool → Bool → Except Err (List Server))
    (ping : List String → List PingHost) (args : Args) (l : List Server)
    (hs : args.show_server_list = true)
    (hf : get_remote_servers fetch args.force_https none none false
        = Except.ok l) :
    (cli fetch ping args).trace
      = [Event.getRemoteServersCall args.force_https none none false]
    ∧ (cli fetch ping args).printed = l.map formatServerLine
    ∧ (cli fetch ping args).printed.length = l.length
    ∧ (∀ e ∈ (cli fetch ping args).trace, isMeasurementEvent e = false)
    ∧ (cli fetch ping args).result = Except.ok () := by
  have hrun := run_list_branch fetch ping args.force_https
    args.server_id_allow_list args.server_id_deny_list l hf
  refine ⟨?_, ?_, ?_, ?_, ?_⟩
  · rw [cli_trace_eq, hs, hrun]
  · rw [cli_printed_eq, hs, hrun]
  · rw [cli_printed_eq, hs, hrun]
    exact List.length_map _ _
  · rw [cli_trace_eq, hs, hrun]
    intro e he
    simp only [List.mem_singleton] at he
    subst he
    rfl
  · rw [cli_result_eq, hs, hrun]

/-- Witness for C8: `--list` together with populated allow- and deny-lists
still calls the provider with no filters and only prints. -/
theorem cli_show_server_list_prints_and_skips_measurement_witness :
    get_remote_servers (fun _ _ => Except.ok [⟨3, "C", "http://c/x", some "S", none⟩])
        false none none false
      = Except.ok [⟨3, "C", "http://c/x", some "S", none⟩]
    ∧ (cli (fun _ _ => Except.ok [⟨3, "C", "http://c/x", some "S", none⟩])
        (fun _ => [])
        {show_server_list := true, server_id_allow_list := some [7],
         server_id_deny_list := some [8]}).trace
      = [Event.getRemoteServersCall false none none false] :=
  ⟨by decide, (cli_show_server_list_prints_and_skips_measurement
    (fun _ _ => Except.ok [⟨3, "C", "http://c/x", some "S", none⟩]) (fun _ => [])
    {show_server_list := true, server_id_allow_list := some [7],
     server_id_deny_list := some [8]}
    [⟨3, "C", "http://c/x", some "S", none⟩] rfl (by decide)).1⟩

/-- C7: on the automatic-selection path, after probing the netlocs of all
candidates and ranking, `cli` invokes the speed test over exactly the
candidate servers whose URL netloc equals the first-ranked result's
domain, in original list order. -/
theorem cli_auto_selection_tests_fastest_domain_servers
    (fetch : Bool → Bool → Except Err (List Server))
    (ping : List String → List PingHost) (args : Args)
    (server_list : List Server) (fastest : RankedHost) (rest : List RankedHost)
    (hs : args.show_server_list = false)
    (ha : truthy args.server_id_allow_list = false)
    (hf : get_remote_servers fetch args.force_https args.server_id_allow_list
        args.server_id_deny_list false = Except.ok server_list)
    (hr : order_ping_results_by_rtt
        (ping (server_list.map (fun s => netloc s.server))) = fastest :: rest) :
    (cli fetch ping args).trace
      = [Event.getRemoteServersCall args.force_https args.server_id_allow_list
          args.server_id_deny_list false,
         Event.icmpPingCall (server_list.map (fun s => netloc s.server)),
         Event.speedTestCall
           (server_list.filter (fun s => netloc s.server == fastest.domain))]
    ∧ (cli fetch ping args).result = Except.ok () := by
  have hrun := run_auto_branch fetch ping args.force_https
    args.server_id_allow_list args.server_id_deny_list server_list fastest rest
    ha hf hr
  refine ⟨?_, ?_⟩
  · rw [cli_trace_eq, hs, hrun]
  · rw [cli_result_eq, hs, hrun]

/-- Candidate list of the C7 witness scenario: two servers on distinct
domains. -/
def autoServers : List Server :=
  [⟨1, "A", "http://a/x", none, none⟩, ⟨2, "B", "http://b/x", none, none⟩]

/-- Ping oracle of the C7 witness scenario: domain "a" at 40 ms, domain
"b" at 25 ms. -/
def autoPing : List String → List PingHost :=
  fun _ => [⟨"a", [⟨40, true⟩]⟩, ⟨"b", [⟨25, true⟩]⟩]

unseal List.merge List.mergeSort in
/-- Witness for C7: with domain "b" fastest, the speed test runs over
exactly the candidate whose netloc is "b". -/
theorem cli_auto_selection_tests_fastest_domain_servers_witness :
    order_ping_results_by_rtt (autoPing (autoServers.map (fun s => netloc s.server)))
      = ⟨"b", 25, 1⟩ :: [⟨"a", 40, 1⟩]
    ∧ (cli (fun _ _ => Except.ok autoServers) autoPing {}).trace
      = [Event.getRemoteServersCall false none none false,
         Event.icmpPingCall (autoServers.map (fun s => netloc s.server)),
         Event.speedTestCall
           (autoServers.filter
             (fun s => netloc s.server == (⟨"b", 25, 1⟩ : RankedHost).domain))] :=
  ⟨by decide, (cli_auto_selection_tests_fastest_domain_servers
    (fun _ _ => Except.ok autoServers) autoPing {} autoServers
    ⟨"b", 25, 1⟩ [⟨"a", 40, 1⟩] rfl rfl (by decide) (by decide)).1⟩

/-- Provider of the C1 scenario: one candidate server. -/
def oneServerFetch : Bool → Bool → Except Err (List Server) :=
  fun _ _ => Except.ok [⟨1, "A", "http://a/x", none, none⟩]

/-- Ping oracle of the C1 scenario: every probe attempt failed, so ranking
yields zero usable hosts. -/
def allFailedPing : List String → List PingHost :=
  fun _ => [⟨"a", [⟨5, false⟩]⟩]

unseal List.merge List.mergeSort in
/-- Counterexample to C1 as stated: when every probe fails, the run does
terminate with an error, but that error is the uncaught IndexError from
`results[0]` on the empty ranking — not a dedicated "no reachable server"
error. -/
theorem cli_all_probes_failed_error_is_index_error :
    (cli oneServerFetch allFailedPing {}).result = Except.error Err.indexError
    ∧ (cli oneServerFetch allFailedPing {}).result
      ≠ Except.error Err.noReachableServer := by
  decide

/-- C1 (amended): when no allow-list is given, `cli` probes and ranks, and
if ranking yields zero usable hosts the run fails — with the uncaught
IndexError from subscripting the empty ranking, not with a dedicated "no
reachable server" error — and never falls back to testing an arbitrary
candidate. -/
theorem cli_empty_ranking_raises_index_error
    (fetch : Bool → Bool → Except Err (List Server))
    (ping : List String → List PingHost) (args : Args) (server_list : List Server)
    (hs : args.show_server_list = false)
    (ha : truthy args.server_id_allow_list = false)
    (hf : get_remote_servers fetch args.force_https args.server_id_allow_list
        args.server_id_deny_list false = Except.ok server_list)
    (hr : order_ping_results_by_rtt
        (ping (server_list.map (fun s => netloc s.server))) = []) :
    (cli fetch ping args).result = Except.error Err.indexError
    ∧ (∀ e ∈ (cli fetch ping args).trace, isSpeedTestCall e = false) := by
  have hrun := run_auto_branch_empty fetch ping args.force_https
    args.server_id_allow_list args.server_id_deny_list server_list ha hf hr
  refine ⟨?_, ?_⟩
  · rw [cli_result_eq, hs, hrun]
  · rw [cli_trace_eq, hs, hrun]
    intro e he
    simp only [List.mem_cons, List.mem_singleton, List.not_mem_nil, or_false] at he
    rcases he with rfl | rfl <;> rfl

unseal List.merge List.mergeSort in
/-- Witness for the amended C1 at the all-probes-failed scenario. -/
theorem cli_empty_ranking_raises_index_error_witness :
    order_ping_results_by_rtt (allFailedPing ["a"]) = []
    ∧ (cli oneServerFetch allFailedPing {}).result = Except.error Err.indexError :=
  ⟨by decide,
   (cli_empty_ranking_raises_index_error oneServerFetch allFailedPing {}
     [⟨1, "A", "http://a/x", none, none⟩] rfl rfl (by decide) (by decide)).1⟩

/-- The ranking comparison is transitive. -/
theorem rankedLe_trans : ∀ a b c : RankedHost,
    rankedLe a b = true → rankedLe b c = true → rankedLe a c = true := by
  intro a b c hab hbc
  simp only [rankedLe, decide_eq_true_eq] at hab hbc ⊢
  omega

/-- The ranking comparison is total. -/
theorem rankedLe_total : ∀ a b : RankedHost,
    (rankedLe a b || rankedLe b a) = true := by
  intro a b
  simp only [rankedLe, Bool.or_eq_true, decide_eq_true_eq]
  omega

/-- A host has no successful rtt exactly when none of its samples
succeeded. -/
theorem successfulRtts_eq_nil_iff (h : PingHost) :
    successfulRtts h = [] ↔ h.samples.any (fun s => s.success) = false := by
  simp [successfulRtts, List.any_eq_false, List.filter_eq_nil_iff]

/-- The hosts surviving aggregation are, domain for domain and in order,
exactly the hosts with at least one successful sample. -/
theorem toRanked_domains (results : List PingHost) :
    (results.filterMap toRanked).map (fun r => r.domain)
      = (results.filter (fun h => h.samples.any (fun s => s.success))).map
          (fun h => h.domain) := by
  induction results with
  | nil => rfl
  | cons h t ih =>
    rw [List.filterMap_cons, List.filter_cons]
    cases hm : (successfulRtts h).min? with
    | none =>
      have hnil : successfulRtts h = [] := by rwa [List.min?_eq_none_iff] at hm
      have hany : h.samples.any (fun s => s.success) = false :=
        (successfulRtts_eq_nil_iff h).mp hnil
      simp [toRanked, hm, hany, ih]
    | some m =>
      have hne : successfulRtts h ≠ [] := by
        intro hc
        rw [hc] at hm
        cases hm
      have hany : h.samples.any (fun s => s.success) = true := by
        cases hy : h.samples.any (fun s => s.success)
        · exact absurd ((successfulRtts_eq_nil_iff h).mpr hy) hne
        · rfl
      simp [toRanked, hm, hany, ih]

/-- C3: the ranking is a permutation of exactly the hosts having at least
one successful sample; it is ordered by ascending representative latency
(the minimum successful rtt of the host); ties on equal representative
latency are broken stably by original candidate-list order (any
latency-tied pair keeps its input order). -/
theorem order_ping_results_by_rtt_perm_sorted_stable (results : List PingHost) :
    ((order_ping_results_by_rtt results).map (fun r => r.domain)).Perm
        ((results.filter (fun h => h.samples.any (fun s => s.success))).map
          (fun h => h.domain))
    ∧ (order_ping_results_by_rtt results).Perm (results.filterMap toRanked)
    ∧ List.Pairwise (fun a b : RankedHost => a.latency ≤ b.latency)
        (order_ping_results_by_rtt results)
    ∧ (∀ a b : RankedHost, a.latency = b.latency →
        List.Sublist [a, b] (results.filterMap toRanked) →
        List.Sublist [a, b] (order_ping_results_by_rtt results))
    ∧ (∀ r ∈ order_ping_results_by_rtt results, ∃ h ∈ results,
        r.domain = h.domain ∧ (successfulRtts h).min? = some r.latency) := by
  have hperm : (order_ping_results_by_rtt results).Perm (results.filterMap toRanked) :=
    List.mergeSort_perm (results.filterMap toRanked) rankedLe
  refine ⟨?_, hperm, ?_, ?_, ?_⟩
  · have hmap := hperm.map (fun r => r.domain)
    rw [toRanked_domains results] at hmap
    exact hmap
  · exact (List.sorted_mergeSort rankedLe_trans rankedLe_total
      (results.filterMap toRanked)).imp
      (fun hab => by simpa [rankedLe] using hab)
  · intro a b heq hsub
    refine List.sublist_mergeSort rankedLe_trans rankedLe_total ?_ hsub
    simp [List.pairwise_cons, rankedLe, heq]
  · intro r hr
    have hr' : r ∈ results.filterMap toRanked := hperm.mem_iff.mp hr
    obtain ⟨h, hmem, hth⟩ := List.mem_filterMap.mp hr'
    unfold toRanked at hth
    cases hm : (successfulRtts h).min? with
    | none =>
      rw [hm] at hth
      cases hth
    | some m =>
      rw [hm] at hth
      injection hth with hth2
      subst hth2
      exact ⟨h, hmem, rfl, hm⟩

/-- Probe results of the C3 witness scenario: host "a" at 40 ms, host "b"
at minimum 25 ms, host "c" all-failed, host "d" at 25 ms (a latency tie
with "b", which is listed first). -/
def tieResults : List PingHost :=
  [⟨"a", [⟨40, true⟩]⟩, ⟨"b", [⟨25, true⟩, ⟨30, true⟩]⟩, ⟨"c", [⟨7, false⟩]⟩,
   ⟨"d", [⟨25, true⟩]⟩]

unseal List.merge List.mergeSort in
/-- Witness for C3: on the tie scenario the latency-tied pair "b", "d"
keeps its input order in the ranking, and the ranked domains are a
permutation of the hosts with a successful sample ("c" is excluded). -/
theorem order_ping_results_by_rtt_perm_sorted_stable_witness :
    List.Sublist [(⟨"b", 25, 2⟩ : RankedHost), ⟨"d", 25, 1⟩]
        (tieResults.filterMap toRanked)
    ∧ List.Sublist [(⟨"b", 25, 2⟩ : RankedHost), ⟨"d", 25, 1⟩]
        (order_ping_results_by_rtt tieResults)
    ∧ ((order_ping_results_by_rtt tieResults).map (fun r => r.domain)).Perm
        ((tieResults.filter (fun h => h.samples.any (fun s => s.success))).map
          (fun h => h.domain)) :=
  ⟨by decide,
   (order_ping_results_by_rtt_perm_sorted_stable tieResults).2.2.2.1
     ⟨"b", 25, 2⟩ ⟨"d", 25, 1⟩ rfl (by decide),
   (order_ping_results_by_rtt_perm_sorted_stable tieResults).1⟩

end Librespeed
